import Mathlib

/-!
# Contact-book core: shallow embedding and verification

A shallow embedding of the contact-book core of `src/main.py`: the `Phone`
and `Birthday` field validation, the `Record` aggregate with its phone and
birthday operations, and the `AddressBook` store with its upcoming-birthday
query.

Modelling conventions:

* A Python method that mutates `self` and may raise `ValueError` becomes a
  function `Record → Option String × Record`; the first component is the
  raised message (`none` on success) and the second is the object state
  after the call, including mutations performed before an exception was
  raised (needed for `edit_phone`, which deletes before it validates).
* The `Phone` and `Name` wrappers hold nothing but their string value, so
  records store the strings directly.
* `datetime` values at midnight are represented by their calendar date; the
  comparison of midnight datetimes coincides with the comparison of their
  `toordinal()` values, which we embed directly.
* `datetime.today()` is modelled as an explicit `today` parameter.
-/

namespace ContactBook

/-- Python `str.isdigit()` on ASCII input: nonempty and every character a
decimal digit `'0'`-`'9'` (`Char.isDigit`). Used by the `Phone.value`
setter, `main.py` line 24. -/
def pyIsdigit (s : String) : Bool :=
  !s.data.isEmpty && s.data.all Char.isDigit

/-- The check performed by the `Phone.value` setter (`main.py` lines 22-26):
`if len(value) != 10 or not value.isdigit(): raise ValueError(...)`.
Returns the raised message, or `none` when the value is accepted. -/
def phoneCheck (v : String) : Option String :=
  if v.length != 10 || !pyIsdigit v then some "Phone number must be 10 digits"
  else none

/-- A calendar date, the payload of a midnight `datetime`. -/
structure Date where
  year : Nat
  month : Nat
  day : Nat
deriving Repr, DecidableEq

/-- Gregorian leap-year rule, as in Python's `calendar date` arithmetic. -/
def isLeap (y : Nat) : Bool :=
  y % 4 == 0 && (y % 100 != 0 || y % 400 == 0)

/-- Number of days in month `m` of year `y` (months `1`-`12`). -/
def daysInMonth (y m : Nat) : Nat :=
  if m = 2 then (if isLeap y then 29 else 28)
  else if m = 4 ∨ m = 6 ∨ m = 9 ∨ m = 11 then 30
  else 31

/-- Days in year `y` strictly before month `m` (as `datetime`'s
`_days_before_month`). -/
def daysBeforeMonth (y m : Nat) : Nat :=
  (List.range (m - 1)).foldl (fun acc i => acc + daysInMonth y (i + 1)) 0

/-- `datetime.toordinal()`: the day number of the date in the proleptic
Gregorian calendar, with 0001-01-01 as day 1. -/
def toOrdinal (d : Date) : Nat :=
  let y := d.year - 1
  365 * y + y / 4 - y / 100 + y / 400 + daysBeforeMonth d.year d.month + d.day

/-- Split a character list at every dot, mirroring how the literal `.`
separators of the compiled `"%d.%m.%Y"` pattern cut the input into the
day, month and year digit runs. -/
def splitDots : List Char → List (List Char)
  | [] => [[]]
  | c :: rest =>
    if c = '.' then [] :: splitDots rest
    else
      match splitDots rest with
      | t :: ts => (c :: t) :: ts
      | [] => [[c]]

/-- Inverse view of `splitDots`: interleave runs with dots. -/
def joinDots : List (List Char) → List Char
  | [] => []
  | [t] => t
  | t :: ts => t ++ '.' :: joinDots ts

/-- Numeric value of a digit run (most significant first). -/
def digitsVal (t : List Char) : Nat :=
  t.foldl (fun acc c => 10 * acc + (c.toNat - '0'.toNat)) 0

/-- The `%d` pattern of `strptime` (`3[01]|[12]\d|0[1-9]|[1-9]`): a one- or
two-digit run whose value is 1-31 (so `"0"` and `"00"` are refused, but a
single digit 1-9 is accepted without zero padding). -/
def dayTok (t : List Char) : Bool :=
  t.all Char.isDigit && (t.length == 1 || t.length == 2) &&
    decide (1 ≤ digitsVal t) && decide (digitsVal t ≤ 31)

/-- The `%m` pattern of `strptime` (`1[0-2]|0[1-9]|[1-9]`): a one- or
two-digit run whose value is 1-12. -/
def monthTok (t : List Char) : Bool :=
  t.all Char.isDigit && (t.length == 1 || t.length == 2) &&
    decide (1 ≤ digitsVal t) && decide (digitsVal t ≤ 12)

/-- The `%Y` pattern of `strptime`: exactly four digits. -/
def yearTok (t : List Char) : Bool :=
  t.all Char.isDigit && t.length == 4

/-- `Birthday.__init__` (`main.py` lines 28-33):
`datetime.strptime(value, "%d.%m.%Y")`, re-raising any `ValueError` as
"Invalid date format. Use DD.MM.YYYY". The whole string must be consumed
(strptime rejects unconverted trailing data), the three dot-separated runs
must match the `%d`/`%m`/`%Y` patterns, and the `datetime` constructor then
requires a real calendar date with year at least `MINYEAR = 1`. -/
def parseBirthday (s : String) : Except String Date :=
  match splitDots s.data with
  | [dt, mt, yt] =>
    if dayTok dt && monthTok mt && yearTok yt then
      if 1 ≤ digitsVal yt ∧
          digitsVal dt ≤ daysInMonth (digitsVal yt) (digitsVal mt) then
        Except.ok ⟨digitsVal yt, digitsVal mt, digitsVal dt⟩
      else Except.error "Invalid date format. Use DD.MM.YYYY"
    else Except.error "Invalid date format. Use DD.MM.YYYY"
  | _ => Except.error "Invalid date format. Use DD.MM.YYYY"

/-- One contact: its name, validated phone strings in insertion order, and
the optional parsed birthday. -/
structure Record where
  name : String
  phones : List String
  birthday : Option Date
deriving Repr, DecidableEq

/-- `Record.__init__` (`main.py` lines 36-39): stores the name (note:
`Name` is a plain `Field`, so no validation happens), an empty phone list
and no birthday. It cannot fail. -/
def Record.create (name : String) : Record :=
  { name := name, phones := [], birthday := none }

/-- `Record.add_phone` (lines 41-42): `Phone(phone)` validates the string
and on success the value is appended; on `ValueError` nothing changes. -/
def Record.add_phone (r : Record) (phone : String) : Option String × Record :=
  match phoneCheck phone with
  | some e => (some e, r)
  | none => (none, { r with phones := r.phones ++ [phone] })

/-- `Record.delete_phone` (lines 44-45): keep exactly the phones whose
string form differs from `phone`; never raises. -/
def Record.delete_phone (r : Record) (phone : String) : Record :=
  { r with phones := r.phones.filter (fun p => p != phone) }

/-- `Record.edit_phone` (lines 47-49): `delete_phone(old)` then
`add_phone(new)`; the deletion persists even when the addition raises. -/
def Record.edit_phone (r : Record) (oldPhone newPhone : String) :
    Option String × Record :=
  (r.delete_phone oldPhone).add_phone newPhone

/-- `Record.add_birthday` (lines 51-55): parse and set only when no
birthday is present, otherwise raise without touching the stored value. -/
def Record.add_birthday (r : Record) (birthday : String) :
    Option String × Record :=
  match r.birthday with
  | none =>
    match parseBirthday birthday with
    | Except.ok d => (none, { r with birthday := some d })
    | Except.error e => (some e, r)
  | some _ => (some "Only one birthday allowed per contact", r)

/-- `Record.find_phone` (lines 57-61): first phone equal to `phone`. -/
def Record.find_phone (r : Record) (phone : String) : Option String :=
  r.phones.find? (fun p => p == phone)

/-- The `AddressBook` dict: an insertion-ordered association list from name
to record, with unique keys, as a Python `dict` is. -/
abbrev AddressBook := List (String × Record)

/-- `AddressBook.add_record` (lines 72-73):
`self.data[record.name.value] = record` — overwrite in place when the key
exists, append otherwise. -/
def AddressBook.add_record : AddressBook → Record → AddressBook
  | [], r => [(r.name, r)]
  | (k, v) :: rest, r =>
    if k = r.name then (k, r) :: rest
    else (k, v) :: AddressBook.add_record rest r

/-- `AddressBook.find` (lines 79-80): `self.data.get(name)`. -/
def AddressBook.find : AddressBook → String → Option Record
  | [], _ => none
  | (k, v) :: rest, name =>
    if k = name then some v else AddressBook.find rest name

/-- `AddressBook.delete` (lines 75-77): drop the entry when present. -/
def AddressBook.delete : AddressBook → String → AddressBook
  | [], _ => []
  | (k, v) :: rest, name =>
    if k = name then rest else (k, v) :: AddressBook.delete rest name

/-- `AddressBook.upcoming_birthdays` (lines 82-89), with `datetime.today()`
modelled as the parameter `today` taken at midnight and
`next_week = today + timedelta(days=7)`. The source compares the FULL
datetimes, year of birth included: `today <= record.birthday.value <=
next_week`; midnight datetimes compare exactly as their ordinals do. -/
def AddressBook.upcoming_birthdays (book : AddressBook) (today : Date) :
    List Record :=
  (book.map Prod.snd).filter fun r =>
    match r.birthday with
    | some b =>
      decide (toOrdinal today ≤ toOrdinal b) &&
        decide (toOrdinal b ≤ toOrdinal today + 7)
    | none => false

/-- The comparison the spec asks of `upcoming_birthdays`, in the spec's own
words: the birthday "falls within [today, today + 7 days] inclusive,
compared as calendar dates by month and day with the year of birth
ignored" — i.e. some real calendar date inside the window carries the
birthday's month and day. -/
def specMonthDayWithinWindow (today b : Date) : Prop :=
  ∃ y : Nat, 1 ≤ y ∧ b.day ≤ daysInMonth y b.month ∧
    toOrdinal today ≤ toOrdinal ⟨y, b.month, b.day⟩ ∧
    toOrdinal ⟨y, b.month, b.day⟩ ≤ toOrdinal today + 7

/-- The claim's strict reading of the accepted birthday format: exactly two
digits, a dot, two digits, a dot, four digits, denoting a real calendar
date of the proleptic Gregorian calendar (year at least 1). -/
def strictDDMMYYYY (s : String) : Bool :=
  match s.data with
  | [d1, d2, c1, m1, m2, c2, y1, y2, y3, y4] =>
    c1 == '.' && c2 == '.' &&
    ([d1, d2, m1, m2, y1, y2, y3, y4].all Char.isDigit) &&
    (let d := digitsVal [d1, d2]
     let m := digitsVal [m1, m2]
     let y := digitsVal [y1, y2, y3, y4]
     decide (1 ≤ y) && decide (1 ≤ m) && decide (m ≤ 12) &&
       decide (1 ≤ d) && decide (d ≤ daysInMonth y m))
  | _ => false

/-- Records reachable through the public operations: created by
`Record.__init__` and transformed by any sequence of `add_phone`,
`delete_phone`, `edit_phone` and `add_birthday` calls (each call's
post-state, whether it raised or not). -/
inductive Reachable : Record → Prop where
  | create (nm : String) : Reachable (Record.create nm)
  | add_phone (r : Record) (p : String) (h : Reachable r) :
      Reachable (r.add_phone p).2
  | delete_phone (r : Record) (p : String) (h : Reachable r) :
      Reachable (r.delete_phone p)
  | edit_phone (r : Record) (po pn : String) (h : Reachable r) :
      Reachable (r.edit_phone po pn).2
  | add_birthday (r : Record) (b : String) (h : Reachable r) :
      Reachable (r.add_birthday b).2

/-! ## Helper lemmas -/

/-- `phoneCheck` raises only the one fixed message. -/
theorem phoneCheck_spec (v : String) :
    phoneCheck v = none ∨ phoneCheck v = some "Phone number must be 10 digits" := by
  unfold phoneCheck
  split <;> simp

/-- `phoneCheck` accepts exactly the 10-character all-digit strings. -/
theorem phoneCheck_none_iff (v : String) :
    phoneCheck v = none ↔ v.length = 10 ∧ ∀ c ∈ v.data, c.isDigit = true := by
  have hlen : v.length = v.data.length := rfl
  unfold phoneCheck pyIsdigit
  by_cases h10 : v.length = 10
  · have hne : ¬v.data.isEmpty := by
      rw [List.isEmpty_iff]
      intro hnil
      rw [hlen, hnil] at h10
      simp at h10
    simp [h10, hne, List.all_eq_true]
  · simp [bne, h10]

theorem joinDots_nil : joinDots [] = [] := rfl

theorem joinDots_single (t : List Char) : joinDots [t] = t := rfl

theorem joinDots_cons (t u : List Char) (us : List (List Char)) :
    joinDots (t :: u :: us) = t ++ '.' :: joinDots (u :: us) := rfl

/-- `splitDots` always produces at least one run. -/
theorem splitDots_ne_nil (cs : List Char) : splitDots cs ≠ [] := by
  cases cs with
  | nil => simp [splitDots]
  | cons c rest =>
    unfold splitDots
    by_cases h : c = '.'
    · simp [h]
    · simp only [if_neg h]
      cases splitDots rest <;> simp

/-- Joining the runs of `splitDots` with dots recovers the input. -/
theorem joinDots_splitDots (cs : List Char) : joinDots (splitDots cs) = cs := by
  induction cs with
  | nil => rfl
  | cons c rest ih =>
    unfold splitDots
    by_cases h : c = '.'
    · subst h
      rw [if_pos rfl]
      obtain ⟨t, ts, hts⟩ : ∃ t ts, splitDots rest = t :: ts := by
        cases hsp : splitDots rest with
        | nil => exact absurd hsp (splitDots_ne_nil rest)
        | cons t ts => exact ⟨t, ts, rfl⟩
      rw [hts]
      rw [hts] at ih
      rw [joinDots_cons]
      simp [ih]
    · rw [if_neg h]
      cases hsp : splitDots rest with
      | nil => exact absurd hsp (splitDots_ne_nil rest)
      | cons t ts =>
        rw [hsp] at ih
        cases ts with
        | nil =>
          rw [joinDots_single] at ih
          simp [joinDots_single, ih]
        | cons u us =>
          rw [joinDots_cons] at ih
          rw [joinDots_cons]
          simp only [List.cons_append]
          rw [ih]

/-- A dot-free run splits into itself. -/
theorem splitDots_no_dot (t : List Char) (h : '.' ∉ t) : splitDots t = [t] := by
  induction t with
  | nil => rfl
  | cons c cs ih =>
    have hc : ¬c = '.' := fun hcc => h (hcc ▸ List.mem_cons_self c cs)
    have hcs : '.' ∉ cs := fun hm => h (List.mem_cons_of_mem c hm)
    unfold splitDots
    rw [if_neg hc, ih hcs]

/-- Splitting past a dot that ends a dot-free run peels that run off. -/
theorem splitDots_dot_append (t r : List Char) (h : '.' ∉ t) :
    splitDots (t ++ '.' :: r) = t :: splitDots r := by
  induction t with
  | nil => simp [splitDots]
  | cons c cs ih =>
    have hc : ¬c = '.' := fun hcc => h (hcc ▸ List.mem_cons_self c cs)
    have hcs : '.' ∉ cs := fun hm => h (List.mem_cons_of_mem c hm)
    show splitDots (c :: (cs ++ '.' :: r)) = (c :: cs) :: splitDots r
    conv_lhs => rw [splitDots]
    rw [if_neg hc, ih hcs]

/-- An all-digit run contains no dot. -/
theorem no_dot_of_digits (t : List Char) (h : t.all Char.isDigit = true) :
    '.' ∉ t := by
  intro hm
  have hdig := List.all_eq_true.mp h _ hm
  exact absurd hdig (by decide)

/-- `parseBirthday` succeeds exactly on strings of the shape
day-run `.` month-run `.` year-run where the runs match the `%d`/`%m`/`%Y`
patterns and the values form a real calendar date with year at least 1. -/
theorem parseBirthday_ok_iff (s : String) :
    (∃ d, parseBirthday s = Except.ok d) ↔
    ∃ dt mt yt : List Char,
      s.data = dt ++ '.' :: (mt ++ '.' :: yt) ∧
      dayTok dt = true ∧ monthTok mt = true ∧ yearTok yt = true ∧
      1 ≤ digitsVal yt ∧
      digitsVal dt ≤ daysInMonth (digitsVal yt) (digitsVal mt) := by
  constructor
  · rintro ⟨d, hd⟩
    unfold parseBirthday at hd
    split at hd
    · rename_i dt mt yt heq
      split at hd
      · rename_i htok
        split at hd
        · rename_i hdate
          have hjoin := joinDots_splitDots s.data
          rw [heq, joinDots_cons, joinDots_cons, joinDots_single] at hjoin
          simp only [Bool.and_eq_true] at htok
          exact ⟨dt, mt, yt, hjoin.symm, htok.1.1, htok.1.2, htok.2,
            hdate.1, hdate.2⟩
        · cases hd
      · cases hd
    · cases hd
  · rintro ⟨dt, mt, yt, hdata, hday, hmon, hyear, hy1, hdm⟩
    have hddig : dt.all Char.isDigit = true := by
      simp only [dayTok, Bool.and_eq_true] at hday
      exact hday.1.1.1
    have hmdig : mt.all Char.isDigit = true := by
      simp only [monthTok, Bool.and_eq_true] at hmon
      exact hmon.1.1.1
    have hydig : yt.all Char.isDigit = true := by
      simp only [yearTok, Bool.and_eq_true] at hyear
      exact hyear.1
    have hsp : splitDots s.data = [dt, mt, yt] := by
      rw [hdata, splitDots_dot_append dt _ (no_dot_of_digits dt hddig),
        splitDots_dot_append mt _ (no_dot_of_digits mt hmdig),
        splitDots_no_dot yt (no_dot_of_digits yt hydig)]
    refine ⟨⟨digitsVal yt, digitsVal mt, digitsVal dt⟩, ?_⟩
    unfold parseBirthday
    rw [hsp]
    dsimp only
    rw [if_pos (by simp [hday, hmon, hyear]), if_pos ⟨hy1, hdm⟩]

/-! ## Claim theorems -/

/-- Claim C2: `add_phone s` succeeds, appending `s` to the record's phone
list, exactly when `s` is a 10-character string of decimal digits; every
other string makes it raise the `ValidationError` message "Phone number
must be 10 digits" and leaves the record unchanged. -/
theorem add_phone_valid_iff (r : Record) (s : String) :
    ((r.add_phone s).1 = none ↔
      s.length = 10 ∧ ∀ c ∈ s.data, c.isDigit = true) ∧
    ((r.add_phone s).1 = none →
      (r.add_phone s).2 = { r with phones := r.phones ++ [s] }) ∧
    ((r.add_phone s).1 ≠ none →
      (r.add_phone s).1 = some "Phone number must be 10 digits" ∧
        (r.add_phone s).2 = r) := by
  unfold Record.add_phone
  rcases phoneCheck_spec s with hpc | hpc <;> rw [hpc] <;> dsimp only
  · exact ⟨iff_of_true rfl ((phoneCheck_none_iff s).mp hpc), fun _ => rfl,
      fun hne => absurd rfl hne⟩
  · refine ⟨iff_of_false (fun h => Option.noConfusion h) ?_,
      fun h => Option.noConfusion h, fun _ => ⟨rfl, rfl⟩⟩
    intro hgood
    rw [(phoneCheck_none_iff s).mpr hgood] at hpc
    cases hpc

/-- Witness for C2 at a concrete valid input. -/
theorem add_phone_valid_iff_witness :
    ((Record.create "Bob").add_phone "0123456789").2
      = { Record.create "Bob" with
          phones := (Record.create "Bob").phones ++ ["0123456789"] } :=
  (add_phone_valid_iff (Record.create "Bob") "0123456789").2.1 rfl

/-- Claim C7 counterexample: `Record.__init__` performs no validation of
the name (`Name` is a plain `Field`), so creation with the empty name
succeeds and yields an empty-name record instead of raising a
`ValidationError`. -/
theorem create_empty_name_succeeds :
    Record.create "" = { name := "", phones := [], birthday := none } ∧
    (Record.create "").name = "" := ⟨rfl, rfl⟩

/-- Claim C7 (amended): `create name` returns a record carrying the given
name — any string, the empty one included — with an empty phone list and no
birthday, and no operation ever changes the stored name. -/
theorem create_and_name_immutable (nm p oldP newP b : String) (r : Record) :
    Record.create nm = { name := nm, phones := [], birthday := none } ∧
    (r.add_phone p).2.name = r.name ∧
    (r.delete_phone p).name = r.name ∧
    (r.edit_phone oldP newP).2.name = r.name ∧
    (r.add_birthday b).2.name = r.name := by
  obtain ⟨nm0, ps, bd⟩ := r
  refine ⟨rfl, ?_, rfl, ?_, ?_⟩
  · unfold Record.add_phone
    cases phoneCheck p <;> rfl
  · unfold Record.edit_phone Record.add_phone
    cases phoneCheck newP <;> rfl
  · unfold Record.add_birthday
    cases bd with
    | some d => rfl
    | none => cases parseBirthday b <;> rfl

/-- Claim C8: after `add_record r`, `find r.name` returns `r` itself, equal
in all fields. `find` matches the key exactly and, being a pure function of
the book, mutates nothing. -/
theorem find_add_record (book : AddressBook) (r : Record) :
    AddressBook.find (AddressBook.add_record book r) r.name = some r := by
  induction book with
  | nil => simp [AddressBook.add_record, AddressBook.find]
  | cons kv rest ih =>
    obtain ⟨k, v⟩ := kv
    by_cases hk : k = r.name
    · simp [AddressBook.add_record, AddressBook.find, hk]
    · simp [AddressBook.add_record, AddressBook.find, hk, ih]

/-- Claim C9: `delete_phone n` removes every phone equal to `n` and nothing
else, never raises (it is a total function), is a no-op when `n` is absent,
and is therefore idempotent. -/
theorem delete_phone_idempotent (r : Record) (n : String) :
    n ∉ (r.delete_phone n).phones ∧
    (r.delete_phone n).delete_phone n = r.delete_phone n ∧
    (n ∉ r.phones → r.delete_phone n = r) ∧
    (∀ p, p ≠ n → ((p ∈ (r.delete_phone n).phones) ↔ p ∈ r.phones)) := by
  obtain ⟨nm, ps, bd⟩ := r
  refine ⟨?_, ?_, ?_, ?_⟩
  · simp [Record.delete_phone, List.mem_filter]
  · simp [Record.delete_phone, List.filter_filter, Bool.and_self]
  · intro hn
    simp only [Record.delete_phone] at hn ⊢
    simp only [Record.mk.injEq, and_true, true_and]
    exact List.filter_eq_self.mpr fun a ha =>
      bne_iff_ne.mpr fun he => hn (he ▸ ha)
  · intro p hp
    simp [Record.delete_phone, List.mem_filter, bne_iff_ne, hp]

/-- Witness for C9 at a concrete input: deleting an absent number changes
nothing. -/
theorem delete_phone_idempotent_witness :
    (Record.mk "A" ["1111111111"] none).delete_phone "2222222222"
      = Record.mk "A" ["1111111111"] none :=
  (delete_phone_idempotent (Record.mk "A" ["1111111111"] none)
    "2222222222").2.2.1 (by decide)

/-- Claim C4: once `set_birthday` has succeeded on a record, every further
call — with any argument, parsable or not — raises "Only one birthday
allowed per contact" and leaves the record, its stored birthday included,
unchanged; the no-birthday → has-birthday transition is one-way. -/
theorem add_birthday_one_way (r : Record) (s t : String)
    (h : (r.add_birthday s).1 = none) :
    ((r.add_birthday s).2.add_birthday t).1
        = some "Only one birthday allowed per contact" ∧
    ((r.add_birthday s).2.add_birthday t).2 = (r.add_birthday s).2 := by
  obtain ⟨nm, ps, bd⟩ := r
  cases bd with
  | some d => exact absurd h (by simp [Record.add_birthday])
  | none =>
    cases hp : parseBirthday s with
    | error e => simp [Record.add_birthday, hp] at h
    | ok d =>
      have hred : Record.add_birthday ⟨nm, ps, none⟩ s
          = (none, ⟨nm, ps, some d⟩) := by
        simp [Record.add_birthday, hp]
      rw [hred]
      exact ⟨rfl, rfl⟩

/-- Witness for C4 at a concrete record: the second `set_birthday` fails. -/
theorem add_birthday_one_way_witness :
    (((Record.create "A").add_birthday "01.01.2000").2.add_birthday
        "02.02.2002").1 = some "Only one birthday allowed per contact" :=
  (add_birthday_one_way (Record.create "A") "01.01.2000" "02.02.2002" rfl).1

/-- Claim C5: on a record whose phones are all validated, `edit_phone old
new` with an invalid `new` raises "Phone number must be 10 digits" and
leaves the phone list containing neither `old` (already deleted) nor `new`
(never added): the delete-then-add sequence is not atomic. -/
theorem edit_phone_nonatomic (r : Record) (oldP newP : String)
    (hmem : oldP ∈ r.phones)
    (hinv : ∀ p ∈ r.phones, phoneCheck p = none)
    (hbad : phoneCheck newP ≠ none) :
    (r.edit_phone oldP newP).1 = some "Phone number must be 10 digits" ∧
    oldP ∉ (r.edit_phone oldP newP).2.phones ∧
    newP ∉ (r.edit_phone oldP newP).2.phones := by
  have hsome : phoneCheck newP = some "Phone number must be 10 digits" :=
    (phoneCheck_spec newP).resolve_left hbad
  obtain ⟨nm, ps, bd⟩ := r
  unfold Record.edit_phone Record.add_phone
  rw [hsome]
  dsimp only
  refine ⟨rfl, ?_, ?_⟩
  · simp [Record.delete_phone, List.mem_filter]
  · intro hn
    have hmem2 : newP ∈ ps := by
      simp only [Record.delete_phone, List.mem_filter] at hn
      exact hn.1
    exact hbad (hinv newP hmem2)

/-- Witness for C5 at a concrete record. -/
theorem edit_phone_nonatomic_witness :
    ((Record.mk "A" ["1234567890"] none).edit_phone "1234567890" "12").1
      = some "Phone number must be 10 digits" :=
  (edit_phone_nonatomic (Record.mk "A" ["1234567890"] none) "1234567890" "12"
    (by decide) (by decide) (by decide)).1

/-- Claim C6 counterexample: editing a phone to itself re-adds it, so with
`old = new = "1234567890"` present and valid, the result still contains
`old`, contradicting "the phone list no longer contains `old`". -/
theorem edit_phone_same_phone :
    "1234567890" ∈ (Record.mk "A" ["1234567890"] none).phones ∧
    phoneCheck "1234567890" = none ∧
    ((Record.mk "A" ["1234567890"] none).edit_phone "1234567890"
        "1234567890").1 = none ∧
    "1234567890" ∈ ((Record.mk "A" ["1234567890"] none).edit_phone
        "1234567890" "1234567890").2.phones := by
  decide

/-- Claim C6 (amended): with `old` present and `new` a valid 10-digit
string, `edit_phone old new` succeeds and the result contains `new`; all
occurrences of `old` are gone provided `new ≠ old` (editing a phone to
itself re-adds it). -/
theorem edit_phone_replaces (r : Record) (oldP newP : String)
    (hmem : oldP ∈ r.phones) (hok : phoneCheck newP = none) :
    (r.edit_phone oldP newP).1 = none ∧
    newP ∈ (r.edit_phone oldP newP).2.phones ∧
    (newP ≠ oldP → oldP ∉ (r.edit_phone oldP newP).2.phones) := by
  unfold Record.edit_phone Record.add_phone
  rw [hok]
  dsimp only
  refine ⟨rfl, ?_, ?_⟩
  · simp [Record.delete_phone]
  · intro hne hmem2
    simp only [Record.delete_phone, List.mem_append, List.mem_filter,
      List.mem_singleton] at hmem2
    rcases hmem2 with ⟨_, hself⟩ | heq
    · exact absurd rfl (bne_iff_ne.mp hself)
    · exact hne heq.symm

/-- Witness for C6 at a concrete record. -/
theorem edit_phone_replaces_witness :
    "9999999999" ∈ ((Record.mk "A" ["1234567890"] none).edit_phone
        "1234567890" "9999999999").2.phones :=
  (edit_phone_replaces (Record.mk "A" ["1234567890"] none) "1234567890"
    "9999999999" (by decide) (by decide)).2.1

/-- Claim C3 counterexample: `strptime("%d.%m.%Y")` accepts one-digit day
and month runs, so `"1.1.2030"` — not of the strict `DD.MM.YYYY` shape —
is parsed successfully and `set_birthday` accepts it. -/
theorem parseBirthday_accepts_nonpadded :
    ((Record.mk "A" [] none).add_birthday "1.1.2030").1 = none ∧
    parseBirthday "1.1.2030" = Except.ok ⟨2030, 1, 1⟩ ∧
    strictDDMMYYYY "1.1.2030" = false := ⟨rfl, rfl, by decide⟩

/-- Claim C3 (amended): on a record with no birthday, `set_birthday s`
succeeds exactly when `s` is a day run, a dot, a month run, a dot and a
year run, where day and month are one or two digits with values 1-31 and
1-12 (zero padding optional, `"0"`/`"00"` refused), the year is exactly
four digits, and the values denote a real calendar date with year at least
1; on any other string it raises and the record, its unset birthday
included, is unchanged. -/
theorem add_birthday_format (nm : String) (ps : List String) (s : String) :
    (((Record.mk nm ps none).add_birthday s).1 = none ↔
      ∃ dt mt yt : List Char,
        s.data = dt ++ '.' :: (mt ++ '.' :: yt) ∧
        dayTok dt = true ∧ monthTok mt = true ∧ yearTok yt = true ∧
        1 ≤ digitsVal yt ∧
        digitsVal dt ≤ daysInMonth (digitsVal yt) (digitsVal mt)) ∧
    (((Record.mk nm ps none).add_birthday s).1 ≠ none →
      ((Record.mk nm ps none).add_birthday s).2 = Record.mk nm ps none) := by
  cases hp : parseBirthday s with
  | ok d =>
    have hred : Record.add_birthday ⟨nm, ps, none⟩ s
        = (none, ⟨nm, ps, some d⟩) := by
      simp [Record.add_birthday, hp]
    rw [hred]
    exact ⟨iff_of_true rfl ((parseBirthday_ok_iff s).mp ⟨d, hp⟩),
      fun hne => absurd rfl hne⟩
  | error e =>
    have hred : Record.add_birthday ⟨nm, ps, none⟩ s
        = (some e, ⟨nm, ps, none⟩) := by
      simp [Record.add_birthday, hp]
    rw [hred]
    refine ⟨iff_of_false (fun h => Option.noConfusion h) ?_, fun _ => rfl⟩
    intro hex
    obtain ⟨d, hd⟩ := (parseBirthday_ok_iff s).mpr hex
    rw [hp] at hd
    cases hd

/-- Witness for C3 (amended) at a concrete valid date string. -/
theorem add_birthday_format_witness :
    ((Record.mk "A" [] none).add_birthday "31.12.1999").1 = none :=
  (add_birthday_format "A" [] "31.12.1999").1.mpr
    ⟨['3', '1'], ['1', '2'], ['1', '9', '9', '9'], by decide, by decide,
      by decide, by decide, by decide, by decide⟩

/-- Claim C10: every record reachable through the public operations holds
only validated phones — 10-character all-decimal-digit strings — because
the `Phone.value` setter runs on every assignment. -/
theorem reachable_phones_valid (r : Record) (h : Reachable r) :
    ∀ p ∈ r.phones, p.length = 10 ∧ ∀ c ∈ p.data, c.isDigit = true := by
  induction h with
  | create nm =>
    intro p hp
    simp [Record.create] at hp
  | add_phone r0 q h0 ih =>
    intro p hp
    unfold Record.add_phone at hp
    cases hq : phoneCheck q with
    | some e =>
      rw [hq] at hp
      exact ih p hp
    | none =>
      rw [hq] at hp
      rcases List.mem_append.mp hp with hmem | hmem
      · exact ih p hmem
      · rw [List.mem_singleton.mp hmem]
        exact (phoneCheck_none_iff q).mp hq
  | delete_phone r0 q h0 ih =>
    intro p hp
    exact ih p (List.mem_of_mem_filter hp)
  | edit_phone r0 po pn h0 ih =>
    intro p hp
    unfold Record.edit_phone Record.add_phone at hp
    cases hq : phoneCheck pn with
    | some e =>
      rw [hq] at hp
      exact ih p (List.mem_of_mem_filter hp)
    | none =>
      rw [hq] at hp
      rcases List.mem_append.mp hp with hmem | hmem
      · exact ih p (List.mem_of_mem_filter hmem)
      · rw [List.mem_singleton.mp hmem]
        exact (phoneCheck_none_iff pn).mp hq
  | add_birthday r0 b h0 ih =>
    intro p hp
    unfold Record.add_birthday at hp
    cases hb : r0.birthday with
    | some d =>
      rw [hb] at hp
      exact ih p hp
    | none =>
      rw [hb] at hp
      cases hpb : parseBirthday b with
      | ok d =>
        rw [hpb] at hp
        exact ih p hp
      | error e =>
        rw [hpb] at hp
        exact ih p hp

/-- Witness for C10 at a concrete reachable record. -/
theorem reachable_phones_valid_witness :
    ("1234567890" : String).length = 10 ∧
      ∀ c ∈ ("1234567890" : String).data, c.isDigit = true :=
  reachable_phones_valid ((Record.create "A").add_phone "1234567890").2
    (Reachable.add_phone (Record.create "A") "1234567890"
      (Reachable.create "A")) "1234567890" (by decide)

/-- Claim C1 (code bug): the source compares the full datetimes, the year
of birth included, so a contact born 01.01.2000 is excluded from the
window [30.12.2029, 06.01.2030] even though the 1st of January falls in it
by month and day — the comparison the spec prescribes would include them.
The claim's own Alice examples (birth year 2030, ahead of `today`) do hold
on the code and are proved alongside. -/
theorem upcoming_birthdays_full_date_bug :
    AddressBook.upcoming_birthdays
        [("Bob", ⟨"Bob", [], some ⟨2000, 1, 1⟩⟩)] ⟨2029, 12, 30⟩ = [] ∧
    specMonthDayWithinWindow ⟨2029, 12, 30⟩ ⟨2000, 1, 1⟩ ∧
    AddressBook.upcoming_birthdays
        [("Alice", ⟨"Alice", [], some ⟨2030, 1, 1⟩⟩)] ⟨2029, 12, 30⟩
      = [⟨"Alice", [], some ⟨2030, 1, 1⟩⟩] ∧
    AddressBook.upcoming_birthdays
        [("Alice", ⟨"Alice", [], some ⟨2030, 1, 1⟩⟩)] ⟨2030, 3, 1⟩ = [] := by
  refine ⟨by decide, ⟨2030, by decide, by decide, by decide, by decide⟩,
    by decide, by decide⟩

end ContactBook
